/-
Verification of the AOI geometry-repair pipeline of `asf_search.WKT.validate_wkt`
(file `src/asf_search/WKT/validate_wkt.py`).

Shallow embedding conventions:
* Coordinates are rationals (the source uses Python floats; the claims under
  consideration do not depend on float rounding of the arithmetic itself).
* A coordinate is a pair (x = longitude, y = latitude) plus an optional Z
  component, since the source accepts `POINT Z`-style geometries.
* Shapely geometries are a closed tagged variant mirroring shapely's concrete
  geometry classes.  `linearRing` models shapely's `LinearRing`, which is a
  distinct `geom_type` (`'LinearRing'`) but an `isinstance` subtype of
  `LineString` — exactly the situation `_search_wkt_prep` and
  `_get_shape_coords` treat differently.
* External library operations with genuinely geometric content
  (`shapely.ops.unary_union`, `.convex_hull`, `.simplify`, `.is_valid`, and the
  haversine metric fed to sklearn's `NearestNeighbors`) are oracle fields of a
  `ShapelyEnv` record; every repository function is embedded concretely over
  these oracles.  Operations with simple arithmetic content
  (`shapely.ops.transform`, `shapely.ops.orient`, `.bounds`, `.is_ccw`,
  Python `%` and `round`) are embedded concretely from their library sources.
* Python exceptions become `Except WktError`.  `ASFWKTError` has two
  origin sites in the file (invalid WKT, simplification bound); we separate
  them, and also model the two crash modes the code can hit: unpacking a
  non-tuple return of `_merge_overlapping_geometry` (its single-member branch
  returns a bare geometry) and the `AttributeError` raised by
  `_get_shape_coords` when it reaches `geometry.geoms` on a geometry that has
  no `geoms` attribute (e.g. a `LinearRing`).
* `warn(...)` side-channel diagnostics are modelled as the ordered list of
  emitted `RepairEntry` values (the flattener's higher-dimension warning
  first, then the report loop of `_simplify_geometry` in source order).
-/
import Mathlib

set_option autoImplicit false
set_option maxRecDepth 4000
set_option linter.unnecessarySeqFocus false

/- Let `decide` and `rfl` evaluate concrete rational arithmetic: the library
marks these operations irreducible only to keep them out of accidental
unfolding, and the kernel reduces them fine. -/
attribute [local semireducible] Rat.add Rat.sub Rat.mul Rat.inv Rat.ofScientific

/-- A 2-D coordinate with an optional Z component, as shapely stores it. -/
structure Coord where
  x : ℚ
  y : ℚ
  z : Option ℚ
deriving DecidableEq, Repr

/-- `RepairEntry` from `asf_search/WKT/RepairEntry.py`: a report type tag and a
report message.  (Quote characters of the source's message strings are elided;
only the identity and multiplicity of entries matter for the claims.) -/
structure RepairEntry where
  report_type : String
  report : String
deriving DecidableEq, Repr

/-- The failure modes of the pipeline: the two `ASFWKTError` raise sites of
`validate_wkt.py`, plus the two crash modes reachable in the source (see the
header comment). -/
inductive WktError where
  | invalidWkt
  | unsupportedType
  | simplificationBound
  | unpackCrash
  | attributeCrash
deriving DecidableEq, Repr

/-- Shapely's concrete geometry classes as a closed variant.  Ring lists of
polygons include the closing duplicate vertex, as `shapely ... .coords` does.
Multi-part members are stored as geometries, mirroring `.geoms`. -/
inductive Geometry where
  | point (c : Coord)
  | lineString (cs : List Coord)
  | linearRing (cs : List Coord)
  | polygon (ext : List Coord) (holes : List (List Coord))
  | multiPoint (gs : List Geometry)
  | multiLineString (gs : List Geometry)
  | multiPolygon (gs : List Geometry)
  | geometryCollection (gs : List Geometry)

namespace Geometry

/-- `geom_type` strings, as shapely reports them. -/
def geomType : Geometry → String
  | .point _ => "Point"
  | .lineString _ => "LineString"
  | .linearRing _ => "LinearRing"
  | .polygon _ _ => "Polygon"
  | .multiPoint _ => "MultiPoint"
  | .multiLineString _ => "MultiLineString"
  | .multiPolygon _ => "MultiPolygon"
  | .geometryCollection _ => "GeometryCollection"

/-- `isinstance(g, BaseMultipartGeometry)`. -/
def isMultipart : Geometry → Bool
  | .multiPoint _ | .multiLineString _ | .multiPolygon _ | .geometryCollection _ => true
  | _ => false

/-- The `.geoms` member list of a multi-part geometry (empty for leaves, whose
`.geoms` access is modelled separately where the source would crash). -/
def geoms : Geometry → List Geometry
  | .multiPoint gs | .multiLineString gs | .multiPolygon gs | .geometryCollection gs => gs
  | _ => []

/-- Rebuild a multi-part geometry of the same class from a member list, as the
source's `MultiPolygon(output)` &c. do. -/
def rebuild : Geometry → List Geometry → Geometry
  | .multiPoint _, gs => .multiPoint gs
  | .multiLineString _, gs => .multiLineString gs
  | .multiPolygon _, gs => .multiPolygon gs
  | .geometryCollection _, gs => .geometryCollection gs
  | g, _ => g

end Geometry

mutual

/-- Every coordinate of a geometry, in traversal order (rings include their
closing duplicate, exactly the coordinates shapely's `transform` visits). -/
def allCoords : Geometry → List Coord
  | .point c => [c]
  | .lineString cs => cs
  | .linearRing cs => cs
  | .polygon ext holes => ext ++ holes.flatten
  | .multiPoint gs => allCoordsList gs
  | .multiLineString gs => allCoordsList gs
  | .multiPolygon gs => allCoordsList gs
  | .geometryCollection gs => allCoordsList gs

def allCoordsList : List Geometry → List Coord
  | [] => []
  | g :: gs => allCoords g ++ allCoordsList gs

end

/-- `geometry.has_z`. -/
def hasZ (g : Geometry) : Bool :=
  (allCoords g).any fun c => c.z.isSome

/-- `geometry.is_empty`. -/
def isEmptyG (g : Geometry) : Bool :=
  (allCoords g).isEmpty

mutual

/-- `shapely.ops.transform` specialised to the source's callbacks, which all
take `(x, y, z=None)` and return a 2-tuple — so every output coordinate has no
Z component. -/
def transform2 (f : Coord → ℚ × ℚ) : Geometry → Geometry
  | .point c => .point ⟨(f c).1, (f c).2, none⟩
  | .lineString cs => .lineString (cs.map fun c => ⟨(f c).1, (f c).2, none⟩)
  | .linearRing cs => .linearRing (cs.map fun c => ⟨(f c).1, (f c).2, none⟩)
  | .polygon ext holes =>
      .polygon (ext.map fun c => ⟨(f c).1, (f c).2, none⟩)
        (holes.map fun r => r.map fun c => ⟨(f c).1, (f c).2, none⟩)
  | .multiPoint gs => .multiPoint (transform2List f gs)
  | .multiLineString gs => .multiLineString (transform2List f gs)
  | .multiPolygon gs => .multiPolygon (transform2List f gs)
  | .geometryCollection gs => .geometryCollection (transform2List f gs)

def transform2List (f : Coord → ℚ × ℚ) : List Geometry → List Geometry
  | [] => []
  | g :: gs => transform2 f g :: transform2List f gs

end

/-- Twice the signed (shoelace) area of a coordinate ring, summed over
adjacent pairs; on closed rings (first = last) this is shapely's
`signed_area` up to the factor 2, which is all `is_ccw` and `orient` use. -/
def sArea2 : List Coord → ℚ
  | a :: b :: rest => (a.x * b.y - b.x * a.y) + sArea2 (b :: rest)
  | _ => 0

/-- Shapely 1.x `LinearRing.is_ccw`: `signed_area(ring) >= 0`. -/
def ringIsCCW (r : List Coord) : Bool :=
  decide (0 ≤ sArea2 r)

/-- One ring of `shapely.geometry.polygon.orient`: keep the ring when
`signed_area(ring) / s >= 0`, otherwise reverse it. -/
def orientRing (s : ℚ) (r : List Coord) : List Coord :=
  if 0 ≤ sArea2 r / s then r else r.reverse

mutual

/-- `shapely.ops.orient g sign`: orient every polygon (exterior to `sign`,
holes to `-sign`), descend into multi-part geometries, and leave other
geometries unchanged. -/
def orient (g : Geometry) (s : ℚ) : Geometry :=
  match g with
  | .polygon ext holes => .polygon (orientRing s ext) (holes.map (orientRing (-s)))
  | .multiPoint gs => .multiPoint (orientList gs s)
  | .multiLineString gs => .multiLineString (orientList gs s)
  | .multiPolygon gs => .multiPolygon (orientList gs s)
  | .geometryCollection gs => .geometryCollection (orientList gs s)
  | g => g

def orientList (gs : List Geometry) (s : ℚ) : List Geometry :=
  match gs with
  | [] => []
  | g :: gs => orient g s :: orientList gs s

end

/-- Python's `%` (floor modulus, result has the divisor's sign for positive
divisors), as used by `_wrap_lon`'s `(x + 180) % 360`. -/
def pymod (a b : ℚ) : ℚ :=
  a - b * ⌊a / b⌋

/-- Python `round(x, 14)` in exact decimal form (the source applies it to
floats; the claims only use that it is monotone and fixes integers). -/
def pyround14 (x : ℚ) : ℚ :=
  (round (x * 10 ^ 14) : ℤ) / 10 ^ 14

/-- `wrapped.bounds[2] - wrapped.bounds[0]`: the longitude span of a
geometry's bounding box (0 for an empty geometry, where the source would
fail on an empty bounds tuple — no claim exercises that case). -/
def lonSpan (g : Geometry) : ℚ :=
  match (allCoords g).map (fun c => c.x) with
  | [] => 0
  | x :: xs => xs.foldl max x - xs.foldl min x

/-- The external shapely / sklearn operations the pipeline calls, as oracles:
`is_valid`, `unary_union`, `.convex_hull`, `.simplify(threshold)`, and the
haversine great-circle distance (in km) between `(lon, lat)` pairs that
`_nearest_neighbor` feeds to sklearn's ball tree. -/
structure ShapelyEnv where
  isValid : Geometry → Bool
  unaryUnion : Geometry → Geometry
  convexHull : Geometry → Geometry
  simplify : Geometry → ℚ → Geometry
  dist : ℚ → ℚ → ℚ → ℚ → ℚ

/-- A concrete oracle assignment used to evaluate the pipeline on inputs whose
run never exercises the geometric content of the oracles (every oracle call on
such runs is either not reached or is behaviourally forced): validity always
holds, union / hull / simplification return their input, and all pairwise
distances are 1000 km (far above the 0.004 spacing floor, as for the real
haversine distance on the degree-scale inputs used below). -/
def trivEnv : ShapelyEnv where
  isValid := fun _ => true
  unaryUnion := fun g => g
  convexHull := fun g => g
  simplify := fun g _ => g
  dist := fun _ _ _ _ => 1000

/-- `_search_wkt_prep` (lines 41–67).  The `isinstance(shape, (Point,
LineString))` test also catches `LinearRing` values, and every shapely class
is caught by one of the branches, so the final `UnsupportedGeometryType`
raise (line 67) is unreachable and has no corresponding case here. -/
def search_wkt_prep (shape : Geometry) : Geometry :=
  match shape with
  | .point _ | .lineString _ | .linearRing _ => shape
  | .multiPoint gs | .multiLineString gs | .multiPolygon gs | .geometryCollection gs =>
      shape.rebuild (gs.map fun geom =>
        match geom with
        | .polygon ext holes => orient (.polygon ext holes) 1
        | g => g)
  | .polygon ext holes => orient (.polygon ext holes) 1

mutual

/-- `_recurse_nested_geometry` inside `_flatten_multipart_geometry`:
collect the non-empty leaf geometries. -/
def flattenLeaves : Geometry → List Geometry
  | .multiPoint gs | .multiLineString gs | .multiPolygon gs | .geometryCollection gs =>
      flattenLeavesList gs
  | g => if isEmptyG g then [] else [g]

def flattenLeavesList : List Geometry → List Geometry
  | [] => []
  | g :: gs => flattenLeaves g ++ flattenLeavesList gs

end

/-- The entry the flattener's `warn` at line 99 corresponds to (§3 of the spec
names this diagnostic kind `HIGHER_DIMENSION_DROPPED`). -/
def higherDimensionEntry : RepairEntry :=
  ⟨"Higher Dimension", "Only 2-Dimensional area of interests are supported"⟩

/-- `_flatten_multipart_geometry` (lines 97–114), paired with its
higher-dimension warning (emitted exactly once, before descending, iff the
input `has_z`).  Note the source only warns here: the returned geometry keeps
any Z components of its leaves. -/
def flatten_multipart_geometry (geometry : Geometry) :
    Geometry × Option RepairEntry :=
  let report := if hasZ geometry then some higherDimensionEntry else none
  let flattened := flattenLeaves geometry
  (match flattened with
   | [g] => g
   | l => .geometryCollection l, report)

/-- `_clamp` (lines 262–264). -/
def clamp (num : ℚ) : ℚ :=
  max (-90) (min 90 num)

/-- The longitude wrap of `_wrap_lon` (lines 182–191). -/
def wrap_lon (x : ℚ) : ℚ :=
  if 180 < |x| then pymod (x + 180) 360 - 180 else x

/-- The longitude unwrap of `_unwrap_lon` (lines 193–196). -/
def unwrap_lon (x : ℚ) : ℚ :=
  if 0 ≤ x then x else x + 360

/-- `_get_clamped_geometry` (lines 164–214): wrap longitudes, unwrap into the
0–360 frame when the wrapped span exceeds 180°, clamp latitudes; count the
coordinates changed by wrap and clamp and report each count when positive.
The report list is `[clamp?, wrap?]` as at line 214. -/
def get_clamped_geometry (shape : Geometry) :
    Geometry × List (Option RepairEntry) :=
  let wrapped := transform2 (fun c => (wrap_lon c.x, c.y)) shape
  let coords_wrapped := ((allCoords shape).filter fun c => wrap_lon c.x ≠ c.x).length
  let unwrapped :=
    if 180 < lonSpan wrapped then transform2 (fun c => (unwrap_lon c.x, c.y)) wrapped
    else wrapped
  let clamped := transform2 (fun c => (c.x, clamp c.y)) unwrapped
  let coords_clamped := ((allCoords unwrapped).filter fun c => clamp c.y ≠ c.y).length
  (clamped,
    [if 0 < coords_clamped then
        some ⟨"CLAMP", "Clamped " ++ toString coords_clamped ++ " value(s) to +/-90 latitude"⟩
      else none,
     if 0 < coords_wrapped then
        some ⟨"WRAP", "Wrapped " ++ toString coords_wrapped ++ " value(s) to +/-180 longitude"⟩
      else none])

/-- The two shapes a Python `return` in `_merge_overlapping_geometry` can
take: a proper `(geometry, report)` tuple, or the bare geometry returned by
the `original_amount == 1` branch (line 130), which the caller's tuple
unpacking cannot consume. -/
inductive MergeRes where
  | pair (g : Geometry) (r : Option RepairEntry)
  | bare (g : Geometry)

/-- `_merge_overlapping_geometry` (lines 117–144). -/
def merge_overlapping_geometry (env : ShapelyEnv) (geometry : Geometry) : MergeRes :=
  if geometry.isMultipart then
    let original_amount := geometry.geoms.length
    if original_amount = 1 then .bare geometry
    else
      let merged := env.unaryUnion geometry
      if merged.isMultipart then
        let unique_shapes := merged.geoms.length
        let merged2 :=
          orient (env.unaryUnion (.geometryCollection (merged.geoms.map env.convexHull))) 1
        .pair merged2 (some ⟨"OVERLAP_MERGE",
          toString unique_shapes ++ " non-overlapping shapes merged by their convex-hulls"⟩)
      else
        .pair merged (some ⟨"OVERLAP_MERGE",
          "overlapping " ++ toString original_amount ++ " shapes merged into one"⟩)
  else .pair geometry none

/-- `_get_convex_hull` (lines 217–227). -/
def get_convex_hull (env : ShapelyEnv) (geometry : Geometry) :
    Geometry × Option RepairEntry :=
  if geometry.geomType ∈ ["MultiPoint", "MultiLineString", "MultiPolygon", "GeometryCollection"]
  then (env.convexHull geometry,
        some ⟨"CONVEX_HULL_INDIVIDUAL", "Unconnected shapes: Convex-halled each INDIVIDUAL shape to merge them together."⟩)
  else (geometry, none)

mutual

/-- `_get_shape_coords` (lines 271–288): flattened coordinates, keyed on
`geom_type` strings — a `Polygon` contributes its exterior ring without the
closing vertex (`exterior.coords[:-1]`) and none of its holes; the final
branch reads `geometry.geoms`, which raises `AttributeError` on a geometry
without members (e.g. a `LinearRing`). -/
def get_shape_coords : Geometry → Except WktError (List Coord)
  | .polygon ext _ => .ok ext.dropLast
  | .lineString cs => .ok cs
  | .point c => .ok [c]
  | .linearRing _ => .error .attributeCrash
  | .multiPoint gs | .multiLineString gs | .multiPolygon gs | .geometryCollection gs =>
      get_shape_coords_list gs

def get_shape_coords_list : List Geometry → Except WktError (List Coord)
  | [] => .ok []
  | g :: gs =>
      match get_shape_coords g with
      | .error e => .error e
      | .ok coords =>
          match get_shape_coords_list gs with
          | .error e => .error e
          | .ok rest => .ok (coords ++ rest)

end

/-- `_get_shape_coords_len` (lines 267–268). -/
def get_shape_coords_len (geometry : Geometry) : Except WktError ℕ :=
  match get_shape_coords geometry with
  | .error e => .error e
  | .ok coords => .ok coords.length

/-- All distances between distinct points of the list under the oracle
metric, as sklearn's 2-nearest-neighbour query sees them. -/
def pairDists (env : ShapelyEnv) : List Coord → List ℚ
  | [] => []
  | p :: rest =>
      (rest.map fun q => env.dist p.x p.y q.x q.y) ++
      (rest.map fun q => env.dist q.x q.y p.x p.y) ++ pairDists env rest

/-- The minimum nearest-neighbour distance of a point list; `none` models the
`float("inf")` returned for fewer than two points (lines 308–309). -/
def nnOfPoints (env : ShapelyEnv) (pts : List Coord) : Option ℚ :=
  if pts.length < 2 then none
  else match pairDists env pts with
    | [] => none
    | d :: ds => some (ds.foldl min d)

/-- `_nearest_neighbor` (lines 291–316). -/
def nearest_neighbor (env : ShapelyEnv) (geometry : Geometry) :
    Except WktError (Option ℚ) :=
  match get_shape_coords geometry with
  | .error e => .error e
  | .ok points => .ok (nnOfPoints env points)

/-- The comparison `nearest_neighbor_distance > 0.004` of line 250, with
`none` playing `float("inf")`. -/
def nnGT004 : Option ℚ → Bool
  | none => true
  | some v => decide (0.004 < v)

/-- `_simplify_aoi` (lines 230–259).  `max_depth` is the explicit recursion
budget (default 10); the Point check and base-case test happen before the
depth test, and the recursive call shrinks the budget by one and multiplies
the threshold by 5.  The `wkt.loads(shape.wkt)` round trip of line 246 is the
identity on the geometry value. -/
def simplify_aoi (env : ShapelyEnv) (shape : Geometry) (threshold : ℚ)
    (max_depth : ℕ) : Except WktError (Geometry × List RepairEntry) :=
  match nearest_neighbor env shape with
  | .error e => .error e
  | .ok nearest_neighbor_distance =>
    if shape.geomType = "Point" then .ok (shape, [])
    else match get_shape_coords_len shape with
      | .error e => .error e
      | .ok len =>
        if decide (len ≤ 300) && nnGT004 nearest_neighbor_distance then .ok (shape, [])
        else match max_depth with
          | 0 => .error .simplificationBound
          | d + 1 =>
            let simplified := env.simplify shape threshold
            match get_shape_coords_len simplified with
            | .error e => .error e
            | .ok slen =>
              let repair : RepairEntry :=
                ⟨"GEOMETRY_SIMPLIFICATION",
                  "Shape Simplified: shape of " ++ toString len ++ " simplified to " ++
                    toString slen ++ " with proximity threshold of " ++ toString threshold⟩
              match simplify_aoi env simplified (threshold * 5) d with
              | .error e => .error e
              | .ok (output, repairs) => .ok (output, repair :: repairs)

/-- `_counter_clockwise_reorientation` (lines 147–161): reorient, and for a
Polygon report `REVERSE` exactly when the exterior's `is_ccw` changed. -/
def counter_clockwise_reorientation (geometry : Geometry) :
    Geometry × Option RepairEntry :=
  let reoriented := orient geometry 1
  match geometry, reoriented with
  | .polygon ext _, .polygon ext2 _ =>
      if ringIsCCW ext2 ≠ ringIsCCW ext then
        (reoriented, some ⟨"REVERSE", "Reversed polygon winding order"⟩)
      else (reoriented, none)
  | _, _ => (reoriented, none)

/-- `_simplify_geometry` (lines 70–94).  The result pairs the final geometry
with the ordered list of diagnostics actually warned: the flattener's
higher-dimension warning first (it fires inside the flatten call), then the
report loop of line 88 in source order
`[merge, convex, clamp, wrap, simplified…, reorientation]`.  The bare return
of `_merge_overlapping_geometry`'s single-member branch makes the tuple
unpacking at line 83 fail, modelled as `unpackCrash`. -/
def simplify_geometry (env : ShapelyEnv) (geometry : Geometry) :
    Except WktError (Geometry × List RepairEntry) :=
  let fl := flatten_multipart_geometry geometry
  let cl := get_clamped_geometry fl.1
  match merge_overlapping_geometry env cl.1 with
  | .bare _ => .error .unpackCrash
  | .pair merged merge_report =>
    let cv := get_convex_hull env merged
    match simplify_aoi env cv.1 0.00001 10 with
    | .error e => .error e
    | .ok (simplified, simplified_report) =>
      let ro := counter_clockwise_reorientation simplified
      let reports :=
        fl.2.toList ++ ([merge_report, cv.2] ++ cl.2).filterMap id ++
          simplified_report ++ ro.2.toList
      let validated := transform2 (fun c => (pyround14 c.x, pyround14 c.y)) ro.1
      .ok (validated, reports)

/-- `validate_wkt` (lines 17–38) on an already-parsed geometry
(`wkt.loads(aoi.wkt)` is the identity on the geometry value): repair through
`_search_wkt_prep` when invalid, reject when still invalid, then run
`_simplify_geometry`. -/
def validate_wkt (env : ShapelyEnv) (aoi : Geometry) :
    Except WktError (Geometry × List RepairEntry) :=
  if env.isValid aoi then simplify_geometry env aoi
  else
    let prepped := search_wkt_prep aoi
    if env.isValid prepped then simplify_geometry env prepped
    else .error .invalidWkt

/-! ### Structural lemmas about the embedded library operations -/

mutual

theorem allCoords_transform2 (f : Coord → ℚ × ℚ) :
    ∀ g, allCoords (transform2 f g) =
      (allCoords g).map fun c => (⟨(f c).1, (f c).2, none⟩ : Coord)
  | .point c => rfl
  | .lineString cs => rfl
  | .linearRing cs => rfl
  | .polygon ext holes => by
      simp [transform2, allCoords]
  | .multiPoint gs => allCoords_transform2_list f gs
  | .multiLineString gs => allCoords_transform2_list f gs
  | .multiPolygon gs => allCoords_transform2_list f gs
  | .geometryCollection gs => allCoords_transform2_list f gs

theorem allCoords_transform2_list (f : Coord → ℚ × ℚ) :
    ∀ gs, allCoordsList (transform2List f gs) =
      (allCoordsList gs).map fun c => (⟨(f c).1, (f c).2, none⟩ : Coord)
  | [] => rfl
  | g :: gs => by
      simp [transform2List, allCoordsList, allCoords_transform2 f g,
        allCoords_transform2_list f gs]

end

theorem mem_orientRing {c : Coord} {s : ℚ} {r : List Coord}
    (h : c ∈ orientRing s r) : c ∈ r := by
  unfold orientRing at h
  split at h <;> simp_all

mutual

theorem mem_allCoords_orient {c : Coord} {s : ℚ} :
    ∀ g, c ∈ allCoords (orient g s) → c ∈ allCoords g
  | .point _, h => h
  | .lineString _, h => h
  | .linearRing _, h => h
  | .polygon ext holes, h => by
      simp only [orient, allCoords, List.mem_append] at h ⊢
      rcases h with h | h
      · exact Or.inl (mem_orientRing h)
      · refine Or.inr ?_
        simp only [List.mem_flatten, List.mem_map] at h ⊢
        obtain ⟨l, ⟨r, hr, rfl⟩, hc⟩ := h
        exact ⟨r, hr, mem_orientRing hc⟩
  | .multiPoint gs, h => mem_allCoordsList_orient gs h
  | .multiLineString gs, h => mem_allCoordsList_orient gs h
  | .multiPolygon gs, h => mem_allCoordsList_orient gs h
  | .geometryCollection gs, h => mem_allCoordsList_orient gs h

theorem mem_allCoordsList_orient {c : Coord} {s : ℚ} :
    ∀ gs, c ∈ allCoordsList (orientList gs s) → c ∈ allCoordsList gs
  | [], h => h
  | g :: gs, h => by
      simp only [orientList, allCoordsList, List.mem_append] at h ⊢
      rcases h with h | h
      · exact Or.inl (mem_allCoords_orient g h)
      · exact Or.inr (mem_allCoordsList_orient gs h)

end

mutual

theorem get_shape_coords_error_eq :
    ∀ g e, get_shape_coords g = .error e → e = WktError.attributeCrash
  | .point _, _, h => by simp [get_shape_coords] at h
  | .lineString _, _, h => by simp [get_shape_coords] at h
  | .linearRing _, e, h => by simpa [get_shape_coords] using h.symm
  | .polygon _ _, _, h => by simp [get_shape_coords] at h
  | .multiPoint gs, e, h => get_shape_coords_list_error_eq gs e h
  | .multiLineString gs, e, h => get_shape_coords_list_error_eq gs e h
  | .multiPolygon gs, e, h => get_shape_coords_list_error_eq gs e h
  | .geometryCollection gs, e, h => get_shape_coords_list_error_eq gs e h

theorem get_shape_coords_list_error_eq :
    ∀ gs e, get_shape_coords_list gs = .error e → e = WktError.attributeCrash
  | [], _, h => by simp [get_shape_coords_list] at h
  | g :: gs, e, h => by
      unfold get_shape_coords_list at h
      split at h
      · exact get_shape_coords_error_eq g e (by simp_all)
      · split at h
        · exact get_shape_coords_list_error_eq gs e (by simp_all)
        · simp at h

end

theorem orientRing_length (s : ℚ) (r : List Coord) :
    (orientRing s r).length = r.length := by
  unfold orientRing
  split <;> simp

mutual

theorem get_shape_coords_orient :
    ∀ (g : Geometry) (s : ℚ),
      (get_shape_coords (orient g s)).map List.length =
        (get_shape_coords g).map List.length
  | .point _, _ => rfl
  | .lineString _, _ => rfl
  | .linearRing _, _ => rfl
  | .polygon ext holes, s => by
      simp [orient, get_shape_coords, Except.map, orientRing]
      split <;> simp
  | .multiPoint gs, s => get_shape_coords_list_orient gs s
  | .multiLineString gs, s => get_shape_coords_list_orient gs s
  | .multiPolygon gs, s => get_shape_coords_list_orient gs s
  | .geometryCollection gs, s => get_shape_coords_list_orient gs s

theorem get_shape_coords_list_orient :
    ∀ (gs : List Geometry) (s : ℚ),
      (get_shape_coords_list (orientList gs s)).map List.length =
        (get_shape_coords_list gs).map List.length
  | [], _ => rfl
  | g :: gs, s => by
      have h1 := get_shape_coords_orient g s
      have h2 := get_shape_coords_list_orient gs s
      simp only [orientList, get_shape_coords_list]
      rcases hg : get_shape_coords g with e | cs <;>
        rcases hg' : get_shape_coords (orient g s) with e' | cs' <;>
          rw [hg, hg'] at h1 <;> simp only [Except.map] at h1 <;> simp at h1
      · rw [h1]
      · rcases hl : get_shape_coords_list gs with e2 | cs2 <;>
          rcases hl' : get_shape_coords_list (orientList gs s) with e2' | cs2' <;>
            rw [hl, hl'] at h2 <;> simp only [Except.map] at h2 <;> simp at h2
        · rw [h2]
        · simp [Except.map, h1, h2]

end

mutual

theorem get_shape_coords_transform2 (f : Coord → ℚ × ℚ) :
    ∀ g, get_shape_coords (transform2 f g) =
      (get_shape_coords g).map (List.map fun c => (⟨(f c).1, (f c).2, none⟩ : Coord))
  | .point c => rfl
  | .lineString cs => rfl
  | .linearRing _ => rfl
  | .polygon ext holes => by
      simp [transform2, get_shape_coords, Except.map, List.map_dropLast]
  | .multiPoint gs => get_shape_coords_list_transform2 f gs
  | .multiLineString gs => get_shape_coords_list_transform2 f gs
  | .multiPolygon gs => get_shape_coords_list_transform2 f gs
  | .geometryCollection gs => get_shape_coords_list_transform2 f gs

theorem get_shape_coords_list_transform2 (f : Coord → ℚ × ℚ) :
    ∀ gs, get_shape_coords_list (transform2List f gs) =
      (get_shape_coords_list gs).map (List.map fun c => (⟨(f c).1, (f c).2, none⟩ : Coord))
  | [] => rfl
  | g :: gs => by
      have h1 := get_shape_coords_transform2 f g
      have h2 := get_shape_coords_list_transform2 f gs
      simp only [transform2List, get_shape_coords_list]
      rw [h1, h2]
      rcases hg : get_shape_coords g with e | cs <;> simp [Except.map] <;>
        rcases hl : get_shape_coords_list gs with e2 | cs2 <;> simp [Except.map]

end

theorem get_shape_coords_len_transform2 (f : Coord → ℚ × ℚ) (g : Geometry) :
    get_shape_coords_len (transform2 f g) = get_shape_coords_len g := by
  unfold get_shape_coords_len
  rw [get_shape_coords_transform2 f g]
  rcases get_shape_coords g with e | cs <;> simp [Except.map]

theorem get_shape_coords_len_orient (g : Geometry) (s : ℚ) :
    get_shape_coords_len (orient g s) = get_shape_coords_len g := by
  have h := get_shape_coords_orient g s
  unfold get_shape_coords_len
  rcases hg : get_shape_coords g with e | cs <;>
    rcases hg' : get_shape_coords (orient g s) with e' | cs' <;>
      rw [hg, hg'] at h <;> simp only [Except.map] at h <;> simp at h <;> simp [h]

/-! ### The base-case guard and iteration structure of `_simplify_aoi` -/

/-- The condition under which `_simplify_aoi` returns its argument unchanged
(lines 244–251): the Point check and the `≤ 300 ∧ nearest-neighbour > 0.004`
test, evaluated in source order (so a crash of the coordinate extraction
surfaces as the same error the call would raise). -/
def baseOk (env : ShapelyEnv) (shape : Geometry) : Except WktError Bool :=
  match nearest_neighbor env shape with
  | .error e => .error e
  | .ok nearest_neighbor_distance =>
    if shape.geomType = "Point" then .ok true
    else match get_shape_coords_len shape with
      | .error e => .error e
      | .ok len => .ok (decide (len ≤ 300) && nnGT004 nearest_neighbor_distance)

/-- The geometry/threshold pair after `k` simplification steps: step `k`
applies the oracle simplifier at the current threshold and multiplies the
threshold by 5, exactly as the recursive call at line 258 does. -/
def simplifyIterate (env : ShapelyEnv) (g : Geometry) (t : ℚ) : ℕ → Geometry × ℚ
  | 0 => (g, t)
  | k + 1 =>
      let p := simplifyIterate env g t k
      (env.simplify p.1 p.2, p.2 * 5)

theorem simplifyIterate_shift (env : ShapelyEnv) (g : Geometry) (t : ℚ) :
    ∀ k, simplifyIterate env g t (k + 1) =
      simplifyIterate env (env.simplify g t) (t * 5) k
  | 0 => rfl
  | k + 1 => by
      show (let p := simplifyIterate env g t (k + 1); (env.simplify p.1 p.2, p.2 * 5)) = _
      rw [simplifyIterate_shift env g t k]
      rfl

theorem simplify_aoi_of_baseOk_error {env : ShapelyEnv} {g : Geometry} {e : WktError}
    (h : baseOk env g = .error e) (t : ℚ) (d : ℕ) :
    simplify_aoi env g t d = .error e := by
  unfold simplify_aoi
  rcases hnn : nearest_neighbor env g with e' | nnv <;>
    simp only [baseOk, hnn] at h ⊢
  · simpa using h
  · split at h
    · simp at h
    · rcases hlen : get_shape_coords_len g with e2 | len <;>
        simp only [hlen] at h ⊢ <;> simp_all

theorem simplify_aoi_of_baseOk_true {env : ShapelyEnv} {g : Geometry}
    (h : baseOk env g = .ok true) (t : ℚ) (d : ℕ) :
    simplify_aoi env g t d = .ok (g, []) := by
  unfold simplify_aoi
  rcases hnn : nearest_neighbor env g with e' | nnv <;>
    simp only [baseOk, hnn] at h ⊢
  · simp at h
  · split at h <;> rename_i hpt
    · simp [hpt]
    · rcases hlen : get_shape_coords_len g with e2 | len <;>
        simp only [hlen] at h ⊢ <;> simp_all

theorem simplify_aoi_zero_of_baseOk_false {env : ShapelyEnv} {g : Geometry}
    (h : baseOk env g = .ok false) (t : ℚ) :
    simplify_aoi env g t 0 = .error .simplificationBound := by
  unfold simplify_aoi
  rcases hnn : nearest_neighbor env g with e' | nnv <;>
    simp only [baseOk, hnn] at h ⊢
  · simp at h
  · split at h <;> rename_i hpt
    · simp at h
    · rcases hlen : get_shape_coords_len g with e2 | len <;>
        simp only [hlen] at h ⊢ <;> simp_all

theorem simplify_aoi_succ_of_baseOk_false {env : ShapelyEnv} {g : Geometry}
    (h : baseOk env g = .ok false) (t : ℚ) (d : ℕ) :
    ∃ rep : RepairEntry,
      simplify_aoi env g t (d + 1) =
        Except.map (fun p => (p.1, rep :: p.2))
          (simplify_aoi env (env.simplify g t) (t * 5) d) := by
  rcases hnn : nearest_neighbor env g with e' | nnv <;>
    simp only [baseOk, hnn] at h
  · simp at h
  split at h <;> rename_i hpt
  · simp at h
  rcases hlen : get_shape_coords_len g with e2 | len <;> simp only [hlen] at h
  · simp at h
  simp only [Except.ok.injEq] at h
  rcases hslen : get_shape_coords_len (env.simplify g t) with e3 | slen
  · have hnn2 : nearest_neighbor env (env.simplify g t) = .error e3 := by
      unfold get_shape_coords_len at hslen
      unfold nearest_neighbor
      rcases hc : get_shape_coords (env.simplify g t) with e4 | cs <;>
        simp only [hc] at hslen ⊢ <;> simp_all
    refine ⟨⟨"GEOMETRY_SIMPLIFICATION", ""⟩, ?_⟩
    rw [simplify_aoi_of_baseOk_error (e := e3) (by simp [baseOk, hnn2]) (t * 5) d]
    unfold simplify_aoi
    simp only [hnn, if_neg hpt, hlen, h, Bool.false_eq_true, if_false, hslen]
    simp [Except.map]
  · refine ⟨⟨"GEOMETRY_SIMPLIFICATION",
      "Shape Simplified: shape of " ++ toString len ++ " simplified to " ++
        toString slen ++ " with proximity threshold of " ++ toString t⟩, ?_⟩
    conv_lhs => unfold simplify_aoi
    simp only [hnn, if_neg hpt, hlen, h, Bool.false_eq_true, if_false, hslen]
    rcases hrec : simplify_aoi env (env.simplify g t) (t * 5) d with e4 | p
    · simp [Except.map]
    · simp [Except.map]

theorem baseOk_error_eq {env : ShapelyEnv} {g : Geometry} {e : WktError}
    (h : baseOk env g = .error e) : e = .attributeCrash := by
  unfold baseOk at h
  rcases hnn : nearest_neighbor env g with e' | nnv <;> simp only [hnn] at h
  · unfold nearest_neighbor at hnn
    rcases hc : get_shape_coords g with e4 | cs <;> simp only [hc] at hnn
    · cases hnn
      cases h
      exact (get_shape_coords_error_eq g _ hc).symm ▸ rfl
    · cases hnn
  · split at h
    · simp at h
    · rcases hlen : get_shape_coords_len g with e2 | len <;> simp only [hlen] at h
      · cases h
        unfold get_shape_coords_len at hlen
        rcases hc : get_shape_coords g with e4 | cs <;> simp only [hc] at hlen
        · cases hlen
          exact get_shape_coords_error_eq g _ hc
        · cases hlen
      · simp at h

theorem simplify_aoi_spec (env : ShapelyEnv) :
    ∀ (d : ℕ) (g : Geometry) (t : ℚ),
      (simplify_aoi env g t d = .error .simplificationBound ↔
        ∀ k ≤ d, baseOk env (simplifyIterate env g t k).1 = .ok false)
      ∧ (∀ out reps, simplify_aoi env g t d = .ok (out, reps) →
          baseOk env out = .ok true) := by
  intro d
  induction d with
  | zero =>
    intro g t
    rcases hb : baseOk env g with e | b
    · rw [simplify_aoi_of_baseOk_error hb]
      have he := baseOk_error_eq hb
      subst he
      constructor
      · constructor
        · intro h; cases h
        · intro h
          have := h 0 le_rfl
          rw [show (simplifyIterate env g t 0).1 = g from rfl, hb] at this
          cases this
      · intro out reps h; cases h
    · cases b
      · rw [simplify_aoi_zero_of_baseOk_false hb]
        refine ⟨⟨fun _ => ?_, fun _ => rfl⟩, fun out reps h => by cases h⟩
        intro k hk
        interval_cases k
        simpa using hb
      · rw [simplify_aoi_of_baseOk_true hb]
        constructor
        · constructor
          · intro h; cases h
          · intro h
            have := h 0 le_rfl
            rw [show (simplifyIterate env g t 0).1 = g from rfl, hb] at this
            cases this
        · intro out reps h
          rw [Except.ok.injEq, Prod.mk.injEq] at h
          rw [← h.1, hb]
  | succ d ih =>
    intro g t
    rcases hb : baseOk env g with e | b
    · rw [simplify_aoi_of_baseOk_error hb]
      have he := baseOk_error_eq hb
      subst he
      constructor
      · constructor
        · intro h; cases h
        · intro h
          have := h 0 (by omega)
          rw [show (simplifyIterate env g t 0).1 = g from rfl, hb] at this
          cases this
      · intro out reps h; cases h
    · cases b
      · obtain ⟨rep, heq⟩ := simplify_aoi_succ_of_baseOk_false hb t d
        have ihs := ih (env.simplify g t) (t * 5)
        constructor
        · rw [heq]
          constructor
          · intro h
            intro k hk
            match k, hk with
            | 0, _ => simpa using hb
            | (j + 1), hk =>
              rw [simplifyIterate_shift]
              refine ihs.1.mp ?_ j (by omega)
              rcases hx : simplify_aoi env (env.simplify g t) (t * 5) d with e2 | p <;>
                rw [hx] at h <;> simp [Except.map] at h
              rw [h]
          · intro h
            have h0 : simplify_aoi env (env.simplify g t) (t * 5) d =
                .error .simplificationBound := by
              refine ihs.1.mpr ?_
              intro j hj
              rw [← simplifyIterate_shift]
              exact h (j + 1) (by omega)
            rw [h0]
            simp [Except.map]
        · intro out reps h
          rw [heq] at h
          rcases hx : simplify_aoi env (env.simplify g t) (t * 5) d with e2 | p <;>
            rw [hx] at h <;> simp [Except.map] at h
          have := ihs.2 p.1 p.2 (by rw [hx])
          rwa [h.1] at this
      · rw [simplify_aoi_of_baseOk_true hb]
        constructor
        · constructor
          · intro h; cases h
          · intro h
            have := h 0 (by omega)
            rw [show (simplifyIterate env g t 0).1 = g from rfl, hb] at this
            cases this
        · intro out reps h
          rw [Except.ok.injEq, Prod.mk.injEq] at h
          rw [← h.1, hb]

/-! ### Coordinate bounds through the pipeline -/

/-- The amended coordinate bound the pipeline actually guarantees: latitude
clamped to [-90, 90], longitude in [-180, 360] (the antimeridian unwrap can
leave the geometry in the 0–360 frame). -/
def inB (c : Coord) : Prop :=
  -180 ≤ c.x ∧ c.x ≤ 360 ∧ -90 ≤ c.y ∧ c.y ≤ 90

def allInB (g : Geometry) : Prop :=
  ∀ c ∈ allCoords g, inB c

/-- Every coordinate of `res` lies inside the bounding box of `src`'s
coordinates.  This is the geometric fact used about the union / hull /
simplification oracles: those shapely operations never move outside the
input's bounding box (hull and Douglas–Peucker vertices are subsets of the
input vertices; a union's new vertices are intersection points of input
edges). -/
def withinBoundsOf (res src : Geometry) : Prop :=
  ∀ c ∈ allCoords res,
    (∃ a ∈ allCoords src, a.x ≤ c.x) ∧ (∃ a ∈ allCoords src, c.x ≤ a.x) ∧
    (∃ a ∈ allCoords src, a.y ≤ c.y) ∧ (∃ a ∈ allCoords src, c.y ≤ a.y)

/-- The bounding-box discipline of the three geometric oracles. -/
def ShapelyEnv.BoundsRespecting (env : ShapelyEnv) : Prop :=
  (∀ g, withinBoundsOf (env.unaryUnion g) g) ∧
  (∀ g, withinBoundsOf (env.convexHull g) g) ∧
  (∀ g t, withinBoundsOf (env.simplify g t) g)

theorem withinBoundsOf_refl (g : Geometry) : withinBoundsOf g g :=
  fun c hc => ⟨⟨c, hc, le_refl _⟩, ⟨c, hc, le_refl _⟩, ⟨c, hc, le_refl _⟩, ⟨c, hc, le_refl _⟩⟩

theorem trivEnv_boundsRespecting : trivEnv.BoundsRespecting :=
  ⟨fun g => withinBoundsOf_refl g, fun g => withinBoundsOf_refl g,
    fun g _ => withinBoundsOf_refl g⟩

theorem allInB_of_withinBoundsOf {src res : Geometry}
    (hsrc : allInB src) (h : withinBoundsOf res src) : allInB res := by
  intro c hc
  obtain ⟨⟨a1, ha1, h1⟩, ⟨a2, ha2, h2⟩, ⟨a3, ha3, h3⟩, ⟨a4, ha4, h4⟩⟩ := h c hc
  obtain ⟨b1, -, -, -⟩ := hsrc a1 ha1
  obtain ⟨-, b2, -, -⟩ := hsrc a2 ha2
  obtain ⟨-, -, b3, -⟩ := hsrc a3 ha3
  obtain ⟨-, -, -, b4⟩ := hsrc a4 ha4
  exact ⟨by linarith, by linarith, by linarith, by linarith⟩

theorem pymod_nonneg_lt {a b : ℚ} (hb : 0 < b) :
    0 ≤ pymod a b ∧ pymod a b < b := by
  unfold pymod
  constructor
  · have := Int.sub_one_lt_floor (a / b)
    have hfl : (⌊a / b⌋ : ℚ) ≤ a / b := Int.floor_le (a / b)
    have : b * (⌊a / b⌋ : ℚ) ≤ b * (a / b) := by
      exact mul_le_mul_of_nonneg_left hfl (le_of_lt hb)
    rw [mul_div_cancel₀ a (ne_of_gt hb)] at this
    linarith
  · have hfl : a / b - 1 < (⌊a / b⌋ : ℚ) := Int.sub_one_lt_floor (a / b)
    have : b * (a / b - 1) < b * (⌊a / b⌋ : ℚ) := by
      exact mul_lt_mul_of_pos_left hfl hb
    rw [mul_sub, mul_div_cancel₀ a (ne_of_gt hb)] at this
    linarith

theorem wrap_lon_mem (x : ℚ) : -180 ≤ wrap_lon x ∧ wrap_lon x ≤ 180 := by
  unfold wrap_lon
  split <;> rename_i h
  · have := pymod_nonneg_lt (a := x + 180) (b := 360) (by norm_num)
    constructor <;> linarith [this.1, this.2]
  · rw [not_lt, abs_le] at h
    exact h

theorem unwrap_lon_mem {x : ℚ} (h1 : -180 ≤ x) (h2 : x ≤ 180) :
    -180 ≤ unwrap_lon x ∧ unwrap_lon x ≤ 360 := by
  unfold unwrap_lon
  split <;> rename_i h <;> constructor <;> linarith

theorem clamp_mem (y : ℚ) : -90 ≤ clamp y ∧ clamp y ≤ 90 := by
  unfold clamp
  constructor
  · exact le_max_left _ _
  · rw [max_le_iff]
    constructor
    · norm_num
    · exact min_le_left _ _

theorem allInB_clamped (g : Geometry) : allInB (get_clamped_geometry g).1 := by
  intro c hc
  simp only [get_clamped_geometry] at hc
  simp only [allCoords_transform2, List.mem_map] at hc
  obtain ⟨u, hu, rfl⟩ := hc
  have hx : -180 ≤ u.x ∧ u.x ≤ 360 := by
    split at hu
    · simp only [allCoords_transform2, List.mem_map] at hu
      obtain ⟨v, hv, rfl⟩ := hu
      obtain ⟨w, hw, rfl⟩ := hv
      have h1 := wrap_lon_mem w.x
      have h2 := unwrap_lon_mem h1.1 h1.2
      exact ⟨h2.1, h2.2⟩
    · simp only [allCoords_transform2, List.mem_map] at hu
      obtain ⟨v, hv, rfl⟩ := hu
      have h1 := wrap_lon_mem v.x
      exact ⟨h1.1, by linarith [h1.2]⟩
  exact ⟨hx.1, hx.2, (clamp_mem u.y).1, (clamp_mem u.y).2⟩

theorem allInB_orient {g : Geometry} (h : allInB g) (s : ℚ) :
    allInB (orient g s) :=
  fun c hc => h c (mem_allCoords_orient g hc)

theorem round_mono {u v : ℚ} (h : u ≤ v) : round u ≤ round v := by
  rw [round_eq, round_eq]
  exact Int.floor_le_floor (by linarith)

theorem pyround14_mem (lo hi : ℤ) {x : ℚ} (h1 : (lo : ℚ) ≤ x) (h2 : x ≤ (hi : ℚ)) :
    (lo : ℚ) ≤ pyround14 x ∧ pyround14 x ≤ (hi : ℚ) := by
  unfold pyround14
  have hE : (0 : ℚ) < 10 ^ 14 := by norm_num
  have hlo : (lo * 10 ^ 14 : ℤ) ≤ round (x * 10 ^ 14) := by
    have : round ((lo * 10 ^ 14 : ℤ) : ℚ) ≤ round (x * 10 ^ 14) := by
      apply round_mono
      push_cast
      exact mul_le_mul_of_nonneg_right h1 (le_of_lt hE)
    rwa [round_intCast] at this
  have hhi : round (x * 10 ^ 14) ≤ (hi * 10 ^ 14 : ℤ) := by
    have : round (x * 10 ^ 14) ≤ round ((hi * 10 ^ 14 : ℤ) : ℚ) := by
      apply round_mono
      push_cast
      exact mul_le_mul_of_nonneg_right h2 (le_of_lt hE)
    rwa [round_intCast] at this
  constructor
  · rw [le_div_iff₀ hE]
    calc (lo : ℚ) * 10 ^ 14 = ((lo * 10 ^ 14 : ℤ) : ℚ) := by push_cast; ring
    _ ≤ ((round (x * 10 ^ 14) : ℤ) : ℚ) := by exact_mod_cast hlo
  · rw [div_le_iff₀ hE]
    calc ((round (x * 10 ^ 14) : ℤ) : ℚ) ≤ ((hi * 10 ^ 14 : ℤ) : ℚ) := by exact_mod_cast hhi
    _ = (hi : ℚ) * 10 ^ 14 := by push_cast; ring

theorem allInB_round_transform {g : Geometry} (h : allInB g) :
    allInB (transform2 (fun c => (pyround14 c.x, pyround14 c.y)) g) := by
  intro c hc
  simp only [allCoords_transform2, List.mem_map] at hc
  obtain ⟨u, hu, rfl⟩ := hc
  obtain ⟨h1, h2, h3, h4⟩ := h u hu
  have hx := pyround14_mem (-180) 360 (by exact_mod_cast h1) (by exact_mod_cast h2)
  have hy := pyround14_mem (-90) 90 (by exact_mod_cast h3) (by exact_mod_cast h4)
  refine ⟨by exact_mod_cast hx.1, by exact_mod_cast hx.2,
    by exact_mod_cast hy.1, by exact_mod_cast hy.2⟩

theorem allCoordsList_subset {m : Geometry} :
    ∀ gs : List Geometry, m ∈ gs → ∀ c ∈ allCoords m, c ∈ allCoordsList gs
  | g :: gs, hm, c, hc => by
      simp only [allCoordsList, List.mem_append]
      rcases List.mem_cons.mp hm with rfl | hm'
      · exact Or.inl hc
      · exact Or.inr (allCoordsList_subset gs hm' c hc)

theorem allCoords_geoms_subset {g m : Geometry} (hm : m ∈ g.geoms) :
    ∀ c ∈ allCoords m, c ∈ allCoords g := by
  intro c hc
  cases g <;> simp only [Geometry.geoms] at hm <;>
    first
    | exact absurd hm (List.not_mem_nil m)
    | (simp only [allCoords]; exact allCoordsList_subset _ hm c hc)

theorem allInB_of_mem_geoms {g m : Geometry} (h : allInB g) (hm : m ∈ g.geoms) :
    allInB m :=
  fun c hc => h c (allCoords_geoms_subset hm c hc)

theorem allInB_geometryCollection {gs : List Geometry}
    (h : ∀ m ∈ gs, allInB m) : allInB (.geometryCollection gs) := by
  intro c hc
  simp only [allCoords] at hc
  induction gs with
  | nil => cases hc
  | cons g gs ih =>
      simp only [allCoordsList, List.mem_append] at hc
      rcases hc with hc | hc
      · exact h g (by simp) c hc
      · exact ih (fun m hm => h m (by simp [hm])) hc

theorem baseOk_true_bounds {env : ShapelyEnv} {g : Geometry}
    (h : baseOk env g = .ok true) :
    (∃ n, get_shape_coords_len g = .ok n ∧ n ≤ 300) ∧
    (∃ o, nearest_neighbor env g = .ok o ∧ nnGT004 o = true) := by
  unfold baseOk at h
  rcases hnn : nearest_neighbor env g with e | nnv <;> simp only [hnn] at h
  · exact Except.noConfusion h
  · split at h <;> rename_i hpt
    · cases g <;> simp only [Geometry.geomType] at hpt <;> try exact absurd hpt (by decide)
      rename_i c
      have h0 : (Except.ok none : Except WktError (Option ℚ)) = Except.ok nnv := by
        rw [← hnn]
        rfl
      cases h0
      exact ⟨⟨1, rfl, by norm_num⟩, ⟨none, rfl, rfl⟩⟩
    · rcases hlen : get_shape_coords_len g with e2 | len <;> simp only [hlen] at h
      · exact Except.noConfusion h
      · simp only [Except.ok.injEq, Bool.and_eq_true, decide_eq_true_eq] at h
        exact ⟨⟨len, rfl, h.1⟩, ⟨nnv, rfl, h.2⟩⟩

theorem allInB_merge {env : ShapelyEnv} (henv : env.BoundsRespecting)
    {g m : Geometry} {r : Option RepairEntry} (h : allInB g)
    (hm : merge_overlapping_geometry env g = .pair m r) : allInB m := by
  unfold merge_overlapping_geometry at hm
  dsimp only at hm
  split at hm
  · split at hm
    · exact MergeRes.noConfusion hm
    · split at hm
      · cases hm
        apply allInB_orient ?_ 1
        apply allInB_of_withinBoundsOf ?_ (henv.1 _)
        apply allInB_geometryCollection
        intro x hx
        simp only [List.mem_map] at hx
        obtain ⟨mem, hmem, rfl⟩ := hx
        apply allInB_of_withinBoundsOf ?_ (henv.2.1 mem)
        apply allInB_of_mem_geoms ?_ hmem
        exact allInB_of_withinBoundsOf h (henv.1 g)
      · cases hm
        exact allInB_of_withinBoundsOf h (henv.1 g)
  · cases hm
    exact h

theorem allInB_hull {env : ShapelyEnv} (henv : env.BoundsRespecting)
    {g : Geometry} (h : allInB g) : allInB (get_convex_hull env g).1 := by
  unfold get_convex_hull
  split
  · exact allInB_of_withinBoundsOf h (henv.2.1 g)
  · exact h

theorem allInB_simplify_aoi {env : ShapelyEnv} (henv : env.BoundsRespecting) :
    ∀ (d : ℕ) (g : Geometry) (t : ℚ) (out : Geometry) (reps : List RepairEntry),
      allInB g → simplify_aoi env g t d = .ok (out, reps) → allInB out := by
  intro d
  induction d with
  | zero =>
    intro g t out reps hg h
    rcases hb : baseOk env g with e | b
    · rw [simplify_aoi_of_baseOk_error hb] at h
      exact Except.noConfusion h
    · cases b
      · rw [simplify_aoi_zero_of_baseOk_false hb] at h
        exact Except.noConfusion h
      · rw [simplify_aoi_of_baseOk_true hb] at h
        rw [Except.ok.injEq, Prod.mk.injEq] at h
        rwa [← h.1]
  | succ d ih =>
    intro g t out reps hg h
    rcases hb : baseOk env g with e | b
    · rw [simplify_aoi_of_baseOk_error hb] at h
      exact Except.noConfusion h
    · cases b
      · obtain ⟨rep, heq⟩ := simplify_aoi_succ_of_baseOk_false hb t d
        rw [heq] at h
        rcases hx : simplify_aoi env (env.simplify g t) (t * 5) d with e2 | p <;>
          rw [hx] at h <;> simp only [Except.map] at h
        · exact Except.noConfusion h
        · rw [Except.ok.injEq, Prod.mk.injEq] at h
          have hin : allInB (env.simplify g t) :=
            allInB_of_withinBoundsOf hg (henv.2.2 g t)
          have := ih (env.simplify g t) (t * 5) p.1 p.2 hin (by rw [hx])
          rwa [← h.1]
      · rw [simplify_aoi_of_baseOk_true hb] at h
        rw [Except.ok.injEq, Prod.mk.injEq] at h
        rwa [← h.1]

theorem ccr_fst (g : Geometry) :
    (counter_clockwise_reorientation g).1 = orient g 1 := by
  unfold counter_clockwise_reorientation
  cases g <;> simp only [orient] <;> (try split) <;> rfl

theorem simplify_geometry_ok {env : ShapelyEnv} {g out : Geometry}
    {reps : List RepairEntry} (h : simplify_geometry env g = .ok (out, reps)) :
    ∃ merged mrep simplified sreps,
      merge_overlapping_geometry env
          (get_clamped_geometry (flatten_multipart_geometry g).1).1 = .pair merged mrep ∧
      simplify_aoi env (get_convex_hull env merged).1 0.00001 10 = .ok (simplified, sreps) ∧
      out = transform2 (fun c => (pyround14 c.x, pyround14 c.y))
        (counter_clockwise_reorientation simplified).1 := by
  unfold simplify_geometry at h
  dsimp only at h
  split at h <;> rename_i hmerge
  · exact Except.noConfusion h
  rename_i merged mrep
  split at h <;> rename_i haoi
  · exact Except.noConfusion h
  rename_i simplified sreps
  rw [Except.ok.injEq, Prod.mk.injEq] at h
  exact ⟨merged, mrep, simplified, sreps, hmerge, haoi, h.1.symm⟩

theorem allInB_simplify_geometry {env : ShapelyEnv} (henv : env.BoundsRespecting)
    {g out : Geometry} {reps : List RepairEntry}
    (h : simplify_geometry env g = .ok (out, reps)) : allInB out := by
  obtain ⟨merged, mrep, simplified, sreps, hmerge, haoi, hout⟩ := simplify_geometry_ok h
  have h1 : allInB (get_clamped_geometry (flatten_multipart_geometry g).1).1 :=
    allInB_clamped _
  have h2 : allInB merged := allInB_merge henv h1 hmerge
  have h3 : allInB (get_convex_hull env merged).1 := allInB_hull henv h2
  have h4 : allInB simplified :=
    allInB_simplify_aoi henv 10 _ _ simplified sreps h3 haoi
  rw [hout, ccr_fst]
  exact allInB_round_transform (allInB_orient h4 1)

theorem allInB_validate {env : ShapelyEnv} (henv : env.BoundsRespecting)
    {g out : Geometry} {reps : List RepairEntry}
    (h : validate_wkt env g = .ok (out, reps)) : allInB out := by
  unfold validate_wkt at h
  split at h
  · exact allInB_simplify_geometry henv h
  · dsimp only at h
    split at h
    · exact allInB_simplify_geometry henv h
    · exact Except.noConfusion h

theorem len_simplify_geometry {env : ShapelyEnv} {g out : Geometry}
    {reps : List RepairEntry} (h : simplify_geometry env g = .ok (out, reps)) :
    ∃ n, get_shape_coords_len out = .ok n ∧ n ≤ 300 := by
  obtain ⟨merged, mrep, simplified, sreps, hmerge, haoi, hout⟩ := simplify_geometry_ok h
  have hb : baseOk env simplified = .ok true :=
    (simplify_aoi_spec env 10 (get_convex_hull env merged).1 0.00001).2
      simplified sreps haoi
  obtain ⟨⟨n, hn, hn300⟩, -⟩ := baseOk_true_bounds hb
  refine ⟨n, ?_, hn300⟩
  rw [hout, get_shape_coords_len_transform2, ccr_fst, get_shape_coords_len_orient]
  exact hn

theorem hasZ_transform2 (f : Coord → ℚ × ℚ) (g : Geometry) :
    hasZ (transform2 f g) = false := by
  unfold hasZ
  rw [allCoords_transform2]
  rw [List.any_eq_false]
  intro c hc
  simp only [List.mem_map] at hc
  obtain ⟨u, hu, rfl⟩ := hc
  simp

theorem hasZ_simplify_geometry {env : ShapelyEnv} {g out : Geometry}
    {reps : List RepairEntry} (h : simplify_geometry env g = .ok (out, reps)) :
    hasZ out = false := by
  obtain ⟨merged, mrep, simplified, sreps, hmerge, haoi, hout⟩ := simplify_geometry_ok h
  rw [hout]
  exact hasZ_transform2 _ _

theorem simplify_aoi_ne_unsupported (env : ShapelyEnv) :
    ∀ (d : ℕ) (g : Geometry) (t : ℚ),
      simplify_aoi env g t d ≠ .error .unsupportedType := by
  intro d
  induction d with
  | zero =>
    intro g t h
    rcases hb : baseOk env g with e | b
    · rw [simplify_aoi_of_baseOk_error hb] at h
      rw [Except.error.injEq] at h
      rw [h] at hb
      cases baseOk_error_eq hb
    · cases b
      · rw [simplify_aoi_zero_of_baseOk_false hb] at h
        cases h
      · rw [simplify_aoi_of_baseOk_true hb] at h
        cases h
  | succ d ih =>
    intro g t h
    rcases hb : baseOk env g with e | b
    · rw [simplify_aoi_of_baseOk_error hb] at h
      rw [Except.error.injEq] at h
      rw [h] at hb
      cases baseOk_error_eq hb
    · cases b
      · obtain ⟨rep, heq⟩ := simplify_aoi_succ_of_baseOk_false hb t d
        rw [heq] at h
        rcases hx : simplify_aoi env (env.simplify g t) (t * 5) d with e2 | p <;>
          rw [hx] at h <;> simp only [Except.map] at h
        · rw [Except.error.injEq] at h
          rw [h] at hx
          exact ih (env.simplify g t) (t * 5) hx
        · cases h
      · rw [simplify_aoi_of_baseOk_true hb] at h
        cases h

theorem simplify_geometry_ne_unsupported (env : ShapelyEnv) (g : Geometry) :
    simplify_geometry env g ≠ .error .unsupportedType := by
  intro h
  unfold simplify_geometry at h
  dsimp only at h
  split at h
  · cases h
  · split at h <;> rename_i haoi
    · rw [Except.error.injEq] at h
      rw [h] at haoi
      exact simplify_aoi_ne_unsupported env 10 _ _ haoi
    · cases h

theorem sArea2_append_last (a : Coord) :
    ∀ l : List Coord, sArea2 (l ++ [a]) = sArea2 l +
      (match l.getLast? with
        | some b => b.x * a.y - a.x * b.y
        | none => 0)
  | [] => by simp [sArea2]
  | [b] => by simp [sArea2]
  | b :: c :: t => by
      have ih := sArea2_append_last a (c :: t)
      simp only [List.cons_append, List.append_eq, sArea2] at ih ⊢
      rw [ih, List.getLast?_cons_cons]
      ring

theorem sArea2_reverse : ∀ l : List Coord, sArea2 l.reverse = -sArea2 l
  | [] => by simp [sArea2]
  | a :: t => by
      have ih := sArea2_reverse t
      rw [List.reverse_cons, sArea2_append_last a t.reverse, ih,
        List.getLast?_reverse]
      cases t with
      | nil => simp [sArea2]
      | cons h t' =>
          simp only [List.head?_cons, sArea2]
          ring

theorem ringIsCCW_orientRing_one (r : List Coord) :
    ringIsCCW (orientRing 1 r) = true := by
  unfold orientRing ringIsCCW
  split <;> rename_i h
  · rw [div_one] at h
    simp [h]
  · rw [div_one, not_le] at h
    rw [sArea2_reverse]
    simp
    linarith

/-! ### Concrete geometries used to settle the claims -/

/-- A LineString spanning the antimeridian: wrapped span 340° > 180°, so the
clamp stage unwraps it into the 0–360 frame. -/
def lsAM : Geometry := .lineString [⟨-170, 0, none⟩, ⟨170, 0, none⟩]

/-- The pipeline's output on `lsAM`: longitude −170 re-expressed as 190. -/
def lsAMout : Geometry := .lineString [⟨190, 0, none⟩, ⟨170, 0, none⟩]

/-- The WRAP diagnostic with count 1. -/
def wrapOneEntry : RepairEntry :=
  ⟨"WRAP", "Wrapped 1 value(s) to +/-180 longitude"⟩

/-- A valid `LINEARRING (0 0, 1 1, 1 0, 0 0)` — a geometry type outside the
supported variants (shapely parses it; `isinstance(·, LineString)` holds but
its `geom_type` is `'LinearRing'` and it has no `.geoms`). -/
def lrEx : Geometry := .linearRing [⟨0, 0, none⟩, ⟨1, 1, none⟩, ⟨1, 0, none⟩, ⟨0, 0, none⟩]

/-- `POINT Z (10 20 5)` — scenario E of the spec. -/
def pZ : Geometry := .point ⟨10, 20, some 5⟩

/-- A clockwise unit square ring. -/
def cwSq : List Coord :=
  [⟨0, 0, none⟩, ⟨0, 1, none⟩, ⟨1, 1, none⟩, ⟨1, 0, none⟩, ⟨0, 0, none⟩]

/-- The counter-clockwise reversal of `cwSq`. -/
def ccwSq : List Coord :=
  [⟨0, 0, none⟩, ⟨1, 0, none⟩, ⟨1, 1, none⟩, ⟨0, 1, none⟩, ⟨0, 0, none⟩]

/-- A counter-clockwise unit square polygon (a fixed point of the pipeline
under the identity oracles). -/
def sqPoly : Geometry := .polygon ccwSq []

/-- A simple clockwise ring of 302 vertices (a sawtooth over y ∈ [1, 2]
closed from below through y = 0), listed with its closing duplicate:
303 coordinates.  Strictly inside `holedPoly`'s exterior. -/
def sawtoothHole : List Coord :=
  ((List.range 300).map fun i => ⟨(i : ℚ) / 2, 1 + ((i % 2 : ℕ) : ℚ), none⟩) ++
    [⟨150, 0, none⟩, ⟨0, 0, none⟩, ⟨0, 1, none⟩]

/-- A valid polygon: a counter-clockwise 4-vertex exterior with the 302-vertex
sawtooth hole.  `_get_shape_coords` sees only the 4 exterior vertices, but the
geometry itself carries 308 coordinates. -/
def holedPoly : Geometry :=
  .polygon [⟨-10, -10, none⟩, ⟨160, -10, none⟩, ⟨160, 80, none⟩, ⟨-10, 80, none⟩,
    ⟨-10, -10, none⟩] [sawtoothHole]

/-- `trivEnv` with a vanishing metric: every pair of distinct points is at
distance 0 km, below the 0.004 spacing floor (as the real haversine metric is
for the metre-scale LineString it is applied to below). -/
def closeEnv : ShapelyEnv :=
  { trivEnv with dist := fun _ _ _ _ => 0 }

/-- A two-point LineString about 1.1 m long — closer than the 4 m spacing
floor. -/
def lsClose : Geometry := .lineString [⟨0, 0, none⟩, ⟨1/100000, 0, none⟩]

set_option maxRecDepth 4000 in
theorem holedPoly_flatten :
    flatten_multipart_geometry holedPoly = (holedPoly, none) := by rfl

set_option maxRecDepth 5000 in
theorem holedPoly_wrap :
    transform2 (fun c => (wrap_lon c.x, c.y)) holedPoly = holedPoly := by rfl

set_option maxRecDepth 5000 in
theorem holedPoly_wrapCount :
    ((allCoords holedPoly).filter fun c => wrap_lon c.x ≠ c.x).length = 0 := by rfl

theorem foldl_max_le {B : ℚ} :
    ∀ (xs : List ℚ) (x : ℚ), x ≤ B → (∀ a ∈ xs, a ≤ B) → xs.foldl max x ≤ B
  | [], x, hx, _ => hx
  | a :: xs, x, hx, hall =>
      foldl_max_le xs (max x a) (max_le hx (hall a (by simp)))
        (fun b hb => hall b (by simp [hb]))

theorem le_foldl_min {lo : ℚ} :
    ∀ (xs : List ℚ) (x : ℚ), lo ≤ x → (∀ a ∈ xs, lo ≤ a) → lo ≤ xs.foldl min x
  | [], x, hx, _ => hx
  | a :: xs, x, hx, hall =>
      le_foldl_min xs (min x a) (le_min hx (hall a (by simp)))
        (fun b hb => hall b (by simp [hb]))

theorem lonSpan_le (lo hi : ℚ) {g : Geometry} (hlohi : lo ≤ hi)
    (h : ∀ c ∈ allCoords g, lo ≤ c.x ∧ c.x ≤ hi) : lonSpan g ≤ hi - lo := by
  unfold lonSpan
  rcases hm : (allCoords g).map (fun c => c.x) with - | ⟨x, xs⟩
  · rw [hm]
    dsimp only
    linarith
  · rw [hm]
    have hmem : ∀ a ∈ x :: xs, lo ≤ a ∧ a ≤ hi := by
      intro a ha
      rw [← hm] at ha
      simp only [List.mem_map] at ha
      obtain ⟨c, hc, rfl⟩ := ha
      exact h c hc
    have h1 : xs.foldl max x ≤ hi :=
      foldl_max_le xs x (hmem x (by simp)).2 (fun a ha => (hmem a (by simp [ha])).2)
    have h2 : lo ≤ xs.foldl min x :=
      le_foldl_min xs x (hmem x (by simp)).1 (fun a ha => (hmem a (by simp [ha])).1)
    dsimp only
    linarith

set_option maxRecDepth 4000 in
theorem holedPoly_x_bounds : ∀ c ∈ allCoords holedPoly, -10 ≤ c.x ∧ c.x ≤ 160 := by
  intro c hc
  simp only [holedPoly, sawtoothHole, allCoords, List.flatten_cons, List.flatten_nil,
    List.append_nil, List.mem_append, List.mem_cons, List.mem_map, List.mem_range,
    List.not_mem_nil, or_false] at hc
  rcases hc with h | h
  · rcases h with rfl | rfl | rfl | rfl | rfl <;> norm_num
  · rcases h with ⟨i, hi, rfl⟩ | rfl | rfl | rfl
    · have : (i : ℚ) ≤ 299 := by
        have : (i : ℚ) ≤ (299 : ℕ) := by exact_mod_cast Nat.le_of_lt_succ hi
        simpa using this
      have h0 : (0 : ℚ) ≤ (i : ℚ) := by positivity
      constructor <;> simp <;> linarith
    · norm_num
    · norm_num
    · norm_num

theorem holedPoly_lonSpan_le : ¬ (180 < lonSpan holedPoly) := by
  have := lonSpan_le (-10) 160 (by norm_num) holedPoly_x_bounds
  push_neg
  linarith

set_option maxRecDepth 5000 in
theorem holedPoly_clampT :
    transform2 (fun c => (c.x, clamp c.y)) holedPoly = holedPoly := by rfl

set_option maxRecDepth 5000 in
theorem holedPoly_clampCount :
    ((allCoords holedPoly).filter fun c => clamp c.y ≠ c.y).length = 0 := by rfl

theorem holedPoly_clamped :
    get_clamped_geometry holedPoly = (holedPoly, [none, none]) := by
  unfold get_clamped_geometry
  dsimp only
  rw [holedPoly_wrap, holedPoly_wrapCount, if_neg holedPoly_lonSpan_le,
    holedPoly_clampT, holedPoly_clampCount]
  norm_num

theorem holedPoly_merge :
    merge_overlapping_geometry trivEnv holedPoly = .pair holedPoly none := by rfl

theorem holedPoly_hull :
    get_convex_hull trivEnv holedPoly = (holedPoly, none) := by rfl

set_option maxRecDepth 4000 in
theorem holedPoly_aoi :
    simplify_aoi trivEnv holedPoly 0.00001 10 = .ok (holedPoly, []) := by rfl

set_option maxRecDepth 6000 in
theorem sawtoothHole_sArea2 : sArea2 sawtoothHole = -899/2 := by rfl

theorem holedPoly_orient : orient holedPoly 1 = holedPoly := by
  show orient (.polygon _ [sawtoothHole]) 1 = _
  unfold orient
  rw [show List.map (orientRing (-1)) [sawtoothHole] = [orientRing (-1) sawtoothHole] from rfl]
  unfold orientRing
  rw [sawtoothHole_sArea2]
  norm_num
  rfl

theorem holedPoly_ccr :
    counter_clockwise_reorientation holedPoly = (holedPoly, none) := by
  unfold counter_clockwise_reorientation
  rw [holedPoly_orient]
  simp only [holedPoly]
  simp

set_option maxRecDepth 5000 in
theorem holedPoly_round :
    transform2 (fun c => (pyround14 c.x, pyround14 c.y)) holedPoly = holedPoly := by rfl

set_option maxRecDepth 4000 in
theorem holedPoly_total_vertices : 300 < (allCoords holedPoly).length := by
  rw [show (allCoords holedPoly).length = 308 from rfl]
  norm_num

theorem holedPoly_validate :
    validate_wkt trivEnv holedPoly = .ok (holedPoly, []) := by
  unfold validate_wkt
  rw [if_pos (show trivEnv.isValid holedPoly = true from rfl)]
  unfold simplify_geometry
  dsimp only
  rw [holedPoly_flatten]
  dsimp only
  rw [holedPoly_clamped]
  dsimp only
  rw [holedPoly_merge]
  dsimp only
  rw [holedPoly_hull]
  dsimp only
  rw [holedPoly_aoi]
  dsimp only
  rw [holedPoly_ccr]
  dsimp only
  rw [holedPoly_round]
  rfl

/-! ### The claims -/

/-- C1, counterexample: the claim "every longitude of a successful output lies
in [-180, 180]" fails on the code.  The antimeridian-crossing LineString
`LINESTRING (-170 0, 170 0)` is valid, is never re-wrapped after the
0–360-frame unwrap of `_get_clamped_geometry`, and `validate_wkt` returns it
with a coordinate at longitude 190 (and no diagnostics).  On this run the
oracle assignment `trivEnv` agrees with real shapely/sklearn: no union, hull
or simplification is performed, and the two output points are ≈ 2200 km
apart, far above the 0.004 spacing floor. -/
theorem C1_longitude_exceeds_180 :
    validate_wkt trivEnv lsAM = .ok (lsAMout, []) ∧
      ∃ c ∈ allCoords lsAMout, 180 < c.x := by
  refine ⟨by rfl, ⟨⟨190, 0, none⟩, ?_, by norm_num⟩⟩
  simp [lsAMout, allCoords]

/-- C1, amended: for every oracle assignment whose union / hull / simplify
operations stay within their input's bounding box (true of shapely), every
coordinate of a successful `validate_wkt` output has latitude in [-90, 90]
and longitude in [-180, 360] — the upper longitude bound is 360, not 180,
because `_get_clamped_geometry` may leave the geometry in the 0–360 frame. -/
theorem C1_coordinate_bounds (env : ShapelyEnv) (henv : env.BoundsRespecting)
    (g out : Geometry) (reps : List RepairEntry)
    (h : validate_wkt env g = .ok (out, reps)) :
    ∀ c ∈ allCoords out, -90 ≤ c.y ∧ c.y ≤ 90 ∧ -180 ≤ c.x ∧ c.x ≤ 360 := by
  intro c hc
  obtain ⟨h1, h2, h3, h4⟩ := allInB_validate henv h c hc
  exact ⟨h3, h4, h1, h2⟩

/-- C1, witness: the amended bound evaluated on a concrete successful run, at
a concrete output coordinate. -/
theorem C1_coordinate_bounds_witness :
    -90 ≤ (Coord.mk 1 0 none).y ∧ (Coord.mk 1 0 none).y ≤ 90 ∧
      -180 ≤ (Coord.mk 1 0 none).x ∧ (Coord.mk 1 0 none).x ≤ 360 :=
  C1_coordinate_bounds trivEnv trivEnv_boundsRespecting sqPoly sqPoly [] (by rfl)
    ⟨1, 0, none⟩ (by simp [sqPoly, ccwSq, allCoords])

/-- C2, counterexample: the claim "the returned geometry has at most 300
vertices" fails when vertices are counted over the whole geometry: a valid
polygon whose exterior has 4 counted vertices but whose interior ring carries
302 more passes the pipeline unchanged (308 coordinates in total), because
`_get_shape_coords` never looks at interior rings.  On this run `trivEnv`
agrees with real shapely/sklearn: the polygon is valid, single-part (so no
union or hull is taken), and the 4 exterior vertices are hundreds of km
apart. -/
theorem C2_hole_vertices_uncounted :
    validate_wkt trivEnv holedPoly = .ok (holedPoly, []) ∧
      300 < (allCoords holedPoly).length :=
  ⟨holedPoly_validate, holedPoly_total_vertices⟩

/-- C2, amended: every successful `validate_wkt` output has at most 300
vertices as the code counts them (`_get_shape_coords_len`: exterior-ring
vertices without the closing duplicate, interior rings excluded), for every
oracle assignment. -/
theorem C2_vertex_bound (env : ShapelyEnv) (g out : Geometry)
    (reps : List RepairEntry) (h : validate_wkt env g = .ok (out, reps)) :
    ∃ n, get_shape_coords_len out = .ok n ∧ n ≤ 300 := by
  unfold validate_wkt at h
  split at h
  · exact len_simplify_geometry h
  · dsimp only at h
    split at h
    · exact len_simplify_geometry h
    · exact Except.noConfusion h

/-- C2, witness: the amended bound evaluated on a concrete successful run. -/
theorem C2_vertex_bound_witness :
    ∃ n, get_shape_coords_len sqPoly = .ok n ∧ n ≤ 300 :=
  C2_vertex_bound trivEnv sqPoly sqPoly [] (by rfl)

/-- C3 (code bug): the pipeline is not idempotent.  On the output of the
antimeridian LineString run (`LINESTRING (190 0, 170 0)`, produced with an
empty diagnostics list), a second application returns the same geometry but
emits a `WRAP` diagnostic with count 1 — the unwrap step re-expresses 190 as
-170 + 360 after the wrap step has already counted a repair — contradicting
the specified "same geometry with an empty diagnostics list" (and
`_get_clamped_geometry`'s own docstring, which promises longitudes wrapped to
±180). -/
theorem C3_rerun_emits_wrap :
    validate_wkt trivEnv lsAM = .ok (lsAMout, []) ∧
    validate_wkt trivEnv lsAMout = .ok (lsAMout, [wrapOneEntry]) ∧
    ([wrapOneEntry] : List RepairEntry) ≠ [] :=
  ⟨by rfl, by rfl, by simp⟩

/-- C4 (code bug): `_merge_overlapping_geometry` handles non-multi-part
geometries as claimed (pass through, no diagnostic), but on a multi-part
geometry with exactly one member the `original_amount == 1` branch returns
the bare geometry instead of a `(geometry, report)` tuple — the caller's
tuple unpacking at line 83 then crashes instead of passing the geometry
through. -/
theorem C4_merge_single_member_bare_return :
    merge_overlapping_geometry trivEnv (.point ⟨1, 1, none⟩) =
      .pair (.point ⟨1, 1, none⟩) none ∧
    merge_overlapping_geometry trivEnv (.multiPoint [.point ⟨1, 1, none⟩]) =
      .bare (.multiPoint [.point ⟨1, 1, none⟩]) :=
  ⟨rfl, rfl⟩

/-- C5: with the default threshold 1e-5 and depth budget 10, `_simplify_aoi`
fails with the simplification-bound error iff none of the 11 geometries
reachable within 10 oracle simplification steps (thresholds 1e-5 · 5^k)
satisfies the base-case guard (Point, or ≤ 300 counted vertices with
nearest-neighbour distance above 0.004); and every successful return
satisfies the vertex bound and the spacing floor. -/
theorem C5_simplification_bound_iff (env : ShapelyEnv) (g : Geometry) :
    (simplify_aoi env g 0.00001 10 = .error .simplificationBound ↔
      ∀ k ≤ 10, baseOk env (simplifyIterate env g 0.00001 k).1 = .ok false) ∧
    (∀ out reps, simplify_aoi env g 0.00001 10 = .ok (out, reps) →
      (∃ n, get_shape_coords_len out = .ok n ∧ n ≤ 300) ∧
      (∃ o, nearest_neighbor env out = .ok o ∧ nnGT004 o = true)) := by
  constructor
  · exact (simplify_aoi_spec env 10 g 0.00001).1
  · intro out reps h
    exact baseOk_true_bounds ((simplify_aoi_spec env 10 g 0.00001).2 out reps h)

/-- C5, witness: the success half evaluated on a concrete run. -/
theorem C5_simplification_bound_iff_witness :
    (∃ n, get_shape_coords_len sqPoly = .ok n ∧ n ≤ 300) ∧
    (∃ o, nearest_neighbor trivEnv sqPoly = .ok o ∧ nnGT004 o = true) :=
  (C5_simplification_bound_iff trivEnv sqPoly).2 sqPoly [] (by rfl)

/-- C6: `_simplify_aoi` carries an explicit depth counter: when the base-case
guard fails, the call at depth 0 fails with the simplification-bound error,
and the call at depth d+1 delegates to the call at depth d on the simplified
geometry (threshold × 5), prepending one simplification report — so the
counter strictly decreases on every recursive call and the recursion (a
structurally terminating function of the counter in this embedding) always
returns or fails. -/
theorem C6_depth_counter (env : ShapelyEnv) (g : Geometry) (t : ℚ) :
    (baseOk env g = .ok false → simplify_aoi env g t 0 = .error .simplificationBound) ∧
    (∀ d, baseOk env g = .ok false →
      ∃ rep, simplify_aoi env g t (d + 1) =
        Except.map (fun p => (p.1, rep :: p.2))
          (simplify_aoi env (env.simplify g t) (t * 5) d)) :=
  ⟨fun h => simplify_aoi_zero_of_baseOk_false h t,
   fun d h => simplify_aoi_succ_of_baseOk_false h t d⟩

/-- C6, witness: both halves instantiated on a 1.1 m LineString whose
nearest-neighbour distance is below the 0.004 km floor. -/
theorem C6_depth_counter_witness :
    simplify_aoi closeEnv lsClose 0.00001 0 = .error .simplificationBound ∧
    ∃ rep, simplify_aoi closeEnv lsClose 0.00001 1 =
      Except.map (fun p => (p.1, rep :: p.2))
        (simplify_aoi closeEnv (closeEnv.simplify lsClose 0.00001) (0.00001 * 5) 0) :=
  ⟨(C6_depth_counter closeEnv lsClose 0.00001).1 (by rfl),
   (C6_depth_counter closeEnv lsClose 0.00001).2 0 (by rfl)⟩

/-- C7, counterexample: a non-Polygon geometry does not always pass through
unchanged — a MultiPolygon whose member is wound clockwise has that member
reversed by the member-wise reorientation (with no diagnostic, as the
`REVERSE` report is only emitted for a bare Polygon): the output differs from
the input at vertex index 1. -/
theorem C7_multipolygon_member_reoriented :
    counter_clockwise_reorientation (.multiPolygon [.polygon cwSq []]) =
      (.multiPolygon [.polygon ccwSq []], none) ∧
    (allCoords (Geometry.multiPolygon [.polygon ccwSq []]))[1]? ≠
      (allCoords (Geometry.multiPolygon [.polygon cwSq []]))[1]? := by
  refine ⟨by rfl, ?_⟩
  intro h
  rw [show (allCoords (Geometry.multiPolygon [.polygon ccwSq []]))[1]? =
        some ⟨1, 0, none⟩ from rfl,
      show (allCoords (Geometry.multiPolygon [.polygon cwSq []]))[1]? =
        some ⟨0, 1, none⟩ from rfl] at h
  simp only [Option.some.injEq, Coord.mk.injEq] at h
  exact absurd h.1 (by norm_num)

/-- C7, amended: for every Polygon the Winding Normalizer's result has a
counter-clockwise exterior ring (`is_ccw` in shapely 1.x is
`signed_area ≥ 0`), and a `REVERSE` diagnostic is emitted iff the input
exterior was not counter-clockwise; non-Polygon geometries never receive a
diagnostic, and single-part non-Polygon geometries pass through unchanged —
but multi-part members are still reoriented member-wise (§4.7 of the spec). -/
theorem C7_winding_normalizer (g : Geometry) :
    (∀ ext holes, g = .polygon ext holes →
      (∃ ext2 holes2, (counter_clockwise_reorientation g).1 = .polygon ext2 holes2 ∧
        ringIsCCW ext2 = true) ∧
      ((counter_clockwise_reorientation g).2.isSome ↔ ringIsCCW ext = false)) ∧
    (g.geomType ≠ "Polygon" → (counter_clockwise_reorientation g).2 = none) ∧
    (g.isMultipart = false → g.geomType ≠ "Polygon" →
      (counter_clockwise_reorientation g).1 = g) := by
  refine ⟨?_, ?_, ?_⟩
  · rintro ext holes rfl
    constructor
    · refine ⟨orientRing 1 ext, holes.map (orientRing (-1)), ?_,
        ringIsCCW_orientRing_one ext⟩
      unfold counter_clockwise_reorientation orient
      dsimp only
      split <;> rfl
    · unfold counter_clockwise_reorientation orient
      dsimp only
      rw [ringIsCCW_orientRing_one ext]
      by_cases hc : ringIsCCW ext <;> simp [hc]
  · intro hng
    cases g <;> first
      | exact absurd rfl hng
      | rfl
  · intro hmp hng
    cases g <;> first
      | exact absurd rfl hng
      | rfl
      | (simp only [Geometry.isMultipart] at hmp; exact Bool.noConfusion hmp)

/-- C7, witness: the Polygon half on a clockwise square (reversed, with a
diagnostic) and the non-Polygon half on a Point. -/
theorem C7_winding_normalizer_witness :
    ((∃ ext2 holes2,
        (counter_clockwise_reorientation (.polygon cwSq [])).1 = .polygon ext2 holes2 ∧
        ringIsCCW ext2 = true) ∧
      ((counter_clockwise_reorientation (.polygon cwSq [])).2.isSome ↔
        ringIsCCW cwSq = false)) ∧
    (counter_clockwise_reorientation (.point ⟨0, 0, none⟩)).2 = none ∧
    (counter_clockwise_reorientation (.point ⟨0, 0, none⟩)).1 = .point ⟨0, 0, none⟩ :=
  ⟨(C7_winding_normalizer (.polygon cwSq [])).1 cwSq [] rfl,
   (C7_winding_normalizer (.point ⟨0, 0, none⟩)).2.1 (by decide),
   (C7_winding_normalizer (.point ⟨0, 0, none⟩)).2.2 (by decide) (by decide)⟩

/-- C8, counterexample: the Flattener does not strip Z — on `POINT Z
(10 20 5)` its returned geometry still carries the Z coordinate (only the
warning is emitted there); Z disappears later, at the Coordinate
Normalizer's first transform. -/
theorem C8_flattener_keeps_z :
    flatten_multipart_geometry pZ = (pZ, some higherDimensionEntry) ∧
    hasZ (flatten_multipart_geometry pZ).1 = true :=
  ⟨rfl, rfl⟩

/-- C8, amended: the higher-dimension warning is emitted exactly once, before
descending, iff the input carries a Z coordinate; no Z coordinate survives
the Coordinate Normalizer stage, and no successful pipeline output carries
one (the final rounding transform also strips Z unconditionally). -/
theorem C8_z_dropped_at_normalizer (env : ShapelyEnv) (g : Geometry) :
    hasZ (get_clamped_geometry (flatten_multipart_geometry g).1).1 = false ∧
    ((flatten_multipart_geometry g).2 = some higherDimensionEntry ↔ hasZ g = true) ∧
    (∀ out reps, validate_wkt env g = .ok (out, reps) → hasZ out = false) := by
  refine ⟨?_, ?_, ?_⟩
  · unfold get_clamped_geometry
    dsimp only
    exact hasZ_transform2 _ _
  · unfold flatten_multipart_geometry
    dsimp only
    by_cases hz : hasZ g <;> simp [hz]
  · intro out reps h
    unfold validate_wkt at h
    split at h
    · exact hasZ_simplify_geometry h
    · dsimp only at h
      split at h
      · exact hasZ_simplify_geometry h
      · exact Except.noConfusion h

/-- C8, witness: the amended statement evaluated on `POINT Z (10 20 5)`
(spec scenario E: output `POINT (10 20)` plus the higher-dimension
diagnostic). -/
theorem C8_z_dropped_at_normalizer_witness :
    hasZ (get_clamped_geometry (flatten_multipart_geometry pZ).1).1 = false ∧
    ((flatten_multipart_geometry pZ).2 = some higherDimensionEntry ↔ hasZ pZ = true) ∧
    hasZ (Geometry.point ⟨10, 20, none⟩) = false :=
  ⟨(C8_z_dropped_at_normalizer trivEnv pZ).1,
   (C8_z_dropped_at_normalizer trivEnv pZ).2.1,
   (C8_z_dropped_at_normalizer trivEnv pZ).2.2 (.point ⟨10, 20, none⟩)
     [higherDimensionEntry] (by rfl)⟩

/-- C9, counterexample: a valid input of unsupported geometry type is not
rejected with `UnsupportedGeometryType`.  The valid `LINEARRING (0 0, 1 1,
1 0, 0 0)` passes the validity check (so `_search_wkt_prep` — the only place
the unsupported-type error is raised — is never called) and the run instead
crashes with the `AttributeError` of `_get_shape_coords` reaching
`geometry.geoms`. -/
theorem C9_valid_linear_ring_attribute_crash :
    validate_wkt trivEnv lrEx = .error .attributeCrash ∧
    (Except.error .attributeCrash :
        Except WktError (Geometry × List RepairEntry)) ≠ .error .unsupportedType :=
  ⟨by rfl, by simp⟩

/-- C9, amended: `validate_wkt` never fails with `UnsupportedGeometryType`,
for any oracle assignment and any geometry: the `isinstance`-based dispatch
of `_search_wkt_prep` classifies every shapely geometry (a `LinearRing`
counts as a `LineString`), so the raise at its end is unreachable; an
unsupported-type input fails later with an attribute error (if valid) or
with the invalid-WKT error (if not). -/
theorem C9_unsupported_type_unreachable (env : ShapelyEnv) (g : Geometry) :
    validate_wkt env g ≠ .error .unsupportedType := by
  intro h
  unfold validate_wkt at h
  split at h
  · exact simplify_geometry_ne_unsupported env g h
  · dsimp only at h
    split at h
    · exact simplify_geometry_ne_unsupported env _ h
    · simp at h

/-- C9, witness: the amended statement applied at the concrete LinearRing
input. -/
theorem C9_unsupported_type_unreachable_witness :
    validate_wkt trivEnv lrEx ≠ .error .unsupportedType :=
  C9_unsupported_type_unreachable trivEnv lrEx

/-- C10: for every Polygon, the coordinate list used by the simplifier and
the nearest-neighbour computation is exactly the exterior ring without its
closing duplicate — interior-ring vertices never appear — so the 300-vertex
limit sees `len(exterior) - 1` and the spacing check runs over exterior
non-closing vertices only. -/
theorem C10_polygon_vertex_counting (env : ShapelyEnv) (ext : List Coord)
    (holes : List (List Coord)) :
    get_shape_coords (.polygon ext holes) = .ok ext.dropLast ∧
    get_shape_coords_len (.polygon ext holes) = .ok (ext.length - 1) ∧
    nearest_neighbor env (.polygon ext holes) = .ok (nnOfPoints env ext.dropLast) := by
  refine ⟨rfl, ?_, rfl⟩
  rw [show get_shape_coords_len (Geometry.polygon ext holes) =
    .ok ext.dropLast.length from rfl, List.length_dropLast]
